import Mathlib

/-!
Verification of the z8 desktop offline-first synchronization subsystem.

The definitions below are a shallow embedding of the Rust sources under
`apps/desktop/src-tauri/src/`: `offline.rs` (durable action queue and the
background queue processor), `commands.rs` (command surface), `clock.rs`
(remote clock API data shapes) and `state.rs` (shared application state).

Machine integers (`i64`, `i32`) are modelled as `Int`; the values involved
(row ids, unix timestamps, retry counts bounded by 6) never approach the
overflow range, so no wrap-around modelling is needed.  Fallible SQLite and
network operations are modelled by environments that decide each call's
outcome; the RFC-3339 parser is a parameter shared between the command
surface and the sync engine, which is exactly the property the proofs rely
on (both sides call the same `DateTime::parse_from_rfc3339`).
-/

namespace Z8

/-- The `ActionType` enum from `offline.rs`. -/
inductive ActionType where
  | ClockIn
  | ClockOut
  | ClockOutWithBreak
deriving DecidableEq, Repr

/-- The `QueuedAction` row from `offline.rs` (SQLite schema: `id, action_type,
timestamp, payload, retry_count, created_at`). -/
structure QueuedAction where
  id : Int
  action_type : ActionType
  timestamp : Int
  payload : Option String
  retry_count : Int
  created_at : Int
deriving DecidableEq, Repr

/-- The SQLite-backed `OfflineQueue` from `offline.rs`.  `rows` is the table
contents in rowid (insertion) order; `nextId` is the `AUTOINCREMENT` counter
(SQLite starts rowids at 1 and, with `AUTOINCREMENT`, never reuses one). -/
structure OfflineQueue where
  rows : List QueuedAction
  nextId : Int
deriving DecidableEq, Repr

/-- A freshly created (or empty on-disk) queue. -/
def emptyQueue : OfflineQueue := { rows := [], nextId := 1 }

/-- Model of `OfflineQueue::enqueue` (`offline.rs`): INSERT with `retry_count`
defaulting to 0 and `created_at = Utc::now()` (the `now` argument); returns
the updated table and `last_insert_rowid`. -/
def enqueue (q : OfflineQueue) (action_type : ActionType) (timestamp : Int)
    (payload : Option String) (now : Int) : OfflineQueue × Int :=
  let a : QueuedAction :=
    { id := q.nextId, action_type := action_type, timestamp := timestamp,
      payload := payload, retry_count := 0, created_at := now }
  ({ rows := q.rows ++ [a], nextId := q.nextId + 1 }, q.nextId)

/-- Model of `OfflineQueue::get_pending` (`offline.rs`): `SELECT ... ORDER BY
created_at ASC`.  SQLite scans the `idx_queue_created_at` index, which stores
entries ordered by `(created_at, rowid)`, so ties on `created_at` come back
in rowid order: a stable sort on `created_at` over the rowid-ordered table. -/
def get_pending (q : OfflineQueue) : List QueuedAction :=
  q.rows.mergeSort (fun a b => decide (a.created_at ≤ b.created_at))

/-- Model of `OfflineQueue::mark_completed` (`offline.rs`): `DELETE FROM queue WHERE
id = ?`. -/
def mark_completed (q : OfflineQueue) (id : Int) : OfflineQueue :=
  { q with rows := q.rows.filter (fun a => decide (a.id ≠ id)) }

/-- Model of `OfflineQueue::increment_retry` (`offline.rs`): `UPDATE queue SET
retry_count = retry_count + 1 WHERE id = ?`. -/
def increment_retry (q : OfflineQueue) (id : Int) : OfflineQueue :=
  { q with
    rows := q.rows.map (fun a =>
      if a.id = id then { a with retry_count := a.retry_count + 1 } else a) }

/-- Model of `OfflineQueue::count` (`offline.rs`): `SELECT COUNT(*) FROM queue`. -/
def count (q : OfflineQueue) : Int := q.rows.length

/-- Model of `OfflineQueue::enqueue` including its fallible SQLite layer: a storage
error (`storageErr = some e`) makes the INSERT fail with no row written and
the `Result::Err` propagates to the caller. -/
def enqueueF (storageErr : Option String) (q : OfflineQueue)
    (action_type : ActionType) (timestamp : Int) (payload : Option String)
    (now : Int) : Except String (OfflineQueue × Int) :=
  match storageErr with
  | some e => .error e
  | none => .ok (enqueue q action_type timestamp payload now)

/-- The `Settings` struct from `settings.rs`. -/
structure Settings where
  webapp_url : String
  always_on_top : Bool
  auto_startup : Bool
deriving DecidableEq, Repr

/-- The fields of `AppState` (`state.rs`) that the core reads and writes. -/
structure AppState where
  sessionToken : Option String
  settings : Settings
  offline_queue : OfflineQueue
  isClockedIn : Bool
deriving Repr

/-- Model of `AppState::new` (`state.rs`): loads settings, opens the persisted queue,
reads the persisted session-token file (`persistedToken` is its contents when
the file exists), and sets `is_clocked_in: RwLock::new(false)`. -/
def AppState.new (settings : Settings) (persistedQueue : OfflineQueue)
    (persistedToken : Option String) : AppState :=
  { sessionToken := persistedToken, settings := settings,
    offline_queue := persistedQueue, isClockedIn := false }

/-- Whether `needle` is a leading segment of `l` (helper for Rust
`str::contains`). -/
def listLeads : List Char → List Char → Bool
  | [], _ => true
  | _ :: _, [] => false
  | c :: cs, d :: ds => decide (c = d) && listLeads cs ds

/-- Whether `needle` occurs as a contiguous segment of `l` (Rust
`str::contains`). -/
def listHasSeg (needle : List Char) : List Char → Bool
  | [] => needle.isEmpty
  | c :: t => listLeads needle (c :: t) || listHasSeg needle t

/-- Rust `String::contains(pat)` on the underlying character sequences. -/
def strContainsSub (s pat : String) : Bool := listHasSeg pat.toList s.toList

/-- The transient-error classifier used in all three commands in
`commands.rs`: the error's display string contains "connection", "timeout"
or "network". -/
def isTransient (e : String) : Bool :=
  strContainsSub e "connection" || strContainsSub e "timeout" ||
    strContainsSub e "network"

/-- The `WorkPeriod` struct from `clock.rs`. -/
structure WorkPeriod where
  id : String
  start_time : String
deriving DecidableEq, Repr

/-- The `ClockStatus` struct from `clock.rs`. -/
structure ClockStatus where
  has_employee : Bool
  employee_id : Option String
  is_clocked_in : Bool
  active_work_period : Option WorkPeriod
deriving DecidableEq, Repr

/-- The synthesized optimistic status built in the transient-failure branches
of the three commands in `commands.rs`
(`ClockStatus { has_employee: true, employee_id: None, is_clocked_in: b,
active_work_period: None }`). -/
def synthStatus (b : Bool) : ClockStatus :=
  { has_employee := true, employee_id := none, is_clocked_in := b,
    active_work_period := none }

/-- The slice of `AppState` that both the commands and the sync engine read:
the session token, the configured webapp URL, and the clocked-in flag. -/
structure SharedState where
  sessionToken : Option String
  webappUrl : String
  isClockedIn : Bool
deriving DecidableEq, Repr

/-- The remote clock API operations of `ClockService` (`clock.rs`). -/
inductive ApiCall where
  | recordClockIn
  | recordClockOut
  | recordClockOutThenIn (breakStart : Int)
  | fetchStatus
deriving DecidableEq, Repr

/-- Observable per-action events of one `start_queue_processor` cycle
(`offline.rs`): an attempted remote call for an action, the
missing/unparseable-payload failure branch, the retry-cap skip branch, and
the terminal status fetch. -/
inductive SyncEvent where
  | call (actionId : Int) (c : ApiCall)
  | payloadFailure (actionId : Int)
  | skipped (actionId : Int)
  | statusFetch
deriving DecidableEq, Repr

/-- Whether an event is a remote-API dispatch on behalf of action `i`. -/
def isCallFor (i : Int) : SyncEvent → Bool
  | .call j _ => decide (j = i)
  | _ => false

/-- Whether an event is the payload-failure branch. -/
def isPayloadFailure : SyncEvent → Bool
  | .payloadFailure _ => true
  | _ => false

/-- Environment of one sync cycle: the RFC-3339 parser
(`DateTime::parse_from_rfc3339`, abstracted to its success/value behaviour),
the success/failure outcome of each replayed remote call, and the outcome of
the terminal `get_status` (`some b` = `Ok` with `is_clocked_in = b`). -/
structure SyncEnv where
  parse : String → Option Int
  replayOk : ApiCall → Bool
  statusResult : Option Bool

/-- The dispatch `match action.action_type { ... }` inside
`start_queue_processor` (`offline.rs`): which remote call (if any) an action
triggers, and whether the attempt succeeded. -/
def attemptAction (env : SyncEnv) (a : QueuedAction) : Bool × List SyncEvent :=
  match a.action_type with
  | .ClockIn => (env.replayOk .recordClockIn, [.call a.id .recordClockIn])
  | .ClockOut => (env.replayOk .recordClockOut, [.call a.id .recordClockOut])
  | .ClockOutWithBreak =>
    match a.payload with
    | some p =>
      match env.parse p with
      | some t =>
        (env.replayOk (.recordClockOutThenIn t),
          [.call a.id (.recordClockOutThenIn t)])
      | none => (false, [.payloadFailure a.id])
    | none => (false, [.payloadFailure a.id])

/-- One iteration of the `for action in pending` loop of
`start_queue_processor`: skip when `retry_count >= 5`, otherwise attempt the
action and `mark_completed` on success / `increment_retry` on failure. -/
def processOne (env : SyncEnv) (acc : OfflineQueue × List SyncEvent)
    (a : QueuedAction) : OfflineQueue × List SyncEvent :=
  if 5 ≤ a.retry_count then (acc.1, acc.2 ++ [.skipped a.id])
  else
    let r := attemptAction env a
    if r.1 then (mark_completed acc.1 a.id, acc.2 ++ r.2)
    else (increment_retry acc.1 a.id, acc.2 ++ r.2)

/-- Result of one sync cycle: the queue afterwards, the clocked-in flag
afterwards, and the events (remote calls and branch markers) in order. -/
structure SyncResult where
  queue : OfflineQueue
  clockedIn : Bool
  events : List SyncEvent
deriving DecidableEq, Repr

/-- One iteration of the `loop` in `start_queue_processor` (`offline.rs`):
skip the cycle when there is no session token or no webapp URL; read the
pending snapshot; skip when it is empty (`continue` fires before the status
fetch); otherwise process every pending action against the snapshot and
finally fetch authoritative status, overwriting the clocked-in flag only
when that fetch succeeds. -/
def syncCycle (env : SyncEnv) (st : SharedState) (q : OfflineQueue) :
    SyncResult :=
  match st.sessionToken with
  | none => { queue := q, clockedIn := st.isClockedIn, events := [] }
  | some _ =>
    if st.webappUrl = "" then
      { queue := q, clockedIn := st.isClockedIn, events := [] }
    else
      let pending := get_pending q
      if pending.isEmpty then
        { queue := q, clockedIn := st.isClockedIn, events := [] }
      else
        let r := pending.foldl (processOne env) (q, [])
        match env.statusResult with
        | some b =>
          { queue := r.1, clockedIn := b, events := r.2 ++ [.statusFetch] }
        | none =>
          { queue := r.1, clockedIn := st.isClockedIn,
            events := r.2 ++ [.statusFetch] }

/-- Environment of one command call: the outcome of the direct remote call,
the outcome of the follow-up `get_status`, whether the SQLite INSERT in the
fallback fails, and the two `Utc::now()` readings (the `timestamp` argument
passed to `enqueue`, and the `created_at` taken inside `enqueue`). -/
structure CmdEnv where
  directResult : Except String Unit
  statusResult : Except String ClockStatus
  storageErr : Option String
  now : Int
  enqNow : Int

/-- Outcome of one command call: the returned `Result`, shared state and
queue afterwards, and remote calls made, in order. -/
structure CmdOutcome where
  result : Except String ClockStatus
  state : SharedState
  queue : OfflineQueue
  calls : List ApiCall
deriving Repr

/-- The queue left behind by `let _ = queue.enqueue(...)` in the commands'
transient-failure branches: the INSERT either succeeds or the error is
discarded and the table is unchanged. -/
def enqueueDiscard (env : CmdEnv) (q : OfflineQueue)
    (action_type : ActionType) (payload : Option String) : OfflineQueue :=
  match enqueueF env.storageErr q action_type env.now payload env.enqNow with
  | .ok r => r.1
  | .error _ => q

/-- The `clock_in` command (`commands.rs`). -/
def cmdClockIn (env : CmdEnv) (st : SharedState) (q : OfflineQueue) :
    CmdOutcome :=
  match st.sessionToken with
  | none => { result := .error "Not authenticated", state := st, queue := q,
              calls := [] }
  | some _ =>
    if st.webappUrl = "" then
      { result := .error "Webapp URL not configured", state := st,
        queue := q, calls := [] }
    else
      match env.directResult with
      | .ok _ =>
        match env.statusResult with
        | .ok status =>
          { result := .ok status,
            state := { st with isClockedIn := status.is_clocked_in },
            queue := q, calls := [.recordClockIn, .fetchStatus] }
        | .error e =>
          { result := .error e, state := st, queue := q,
            calls := [.recordClockIn, .fetchStatus] }
      | .error e =>
        if isTransient e then
          { result := .ok (synthStatus true),
            state := { st with isClockedIn := true },
            queue := enqueueDiscard env q .ClockIn none,
            calls := [.recordClockIn] }
        else
          { result := .error e, state := st, queue := q,
            calls := [.recordClockIn] }

/-- The `clock_out` command (`commands.rs`). -/
def cmdClockOut (env : CmdEnv) (st : SharedState) (q : OfflineQueue) :
    CmdOutcome :=
  match st.sessionToken with
  | none => { result := .error "Not authenticated", state := st, queue := q,
              calls := [] }
  | some _ =>
    if st.webappUrl = "" then
      { result := .error "Webapp URL not configured", state := st,
        queue := q, calls := [] }
    else
      match env.directResult with
      | .ok _ =>
        match env.statusResult with
        | .ok status =>
          { result := .ok status,
            state := { st with isClockedIn := status.is_clocked_in },
            queue := q, calls := [.recordClockOut, .fetchStatus] }
        | .error e =>
          { result := .error e, state := st, queue := q,
            calls := [.recordClockOut, .fetchStatus] }
      | .error e =>
        if isTransient e then
          { result := .ok (synthStatus false),
            state := { st with isClockedIn := false },
            queue := enqueueDiscard env q .ClockOut none,
            calls := [.recordClockOut] }
        else
          { result := .error e, state := st, queue := q,
            calls := [.recordClockOut] }

/-- The `clock_out_with_break` command (`commands.rs`).  Note: its
transient-failure branch returns the synthesized clocked-in status but does
not write `state.set_clocked_in` (source comment: "Remain clocked in since
we'll clock back in after break"), so `st` is returned unchanged there. -/
def cmdClockOutWithBreak (parse : String → Option Int) (env : CmdEnv)
    (st : SharedState) (q : OfflineQueue) (breakStartTime : String) :
    CmdOutcome :=
  match st.sessionToken with
  | none => { result := .error "Not authenticated", state := st, queue := q,
              calls := [] }
  | some _ =>
    if st.webappUrl = "" then
      { result := .error "Webapp URL not configured", state := st,
        queue := q, calls := [] }
    else
      match parse breakStartTime with
      | none =>
        { result := .error "Invalid break time", state := st, queue := q,
          calls := [] }
      | some t =>
        match env.directResult with
        | .ok _ =>
          match env.statusResult with
          | .ok status =>
            { result := .ok status,
              state := { st with isClockedIn := status.is_clocked_in },
              queue := q, calls := [.recordClockOutThenIn t, .fetchStatus] }
          | .error e =>
            { result := .error e, state := st, queue := q,
              calls := [.recordClockOutThenIn t, .fetchStatus] }
        | .error e =>
          if isTransient e then
            { result := .ok (synthStatus true),
              state := st,
              queue := enqueueDiscard env q .ClockOutWithBreak
                (some breakStartTime),
              calls := [.recordClockOutThenIn t] }
          else
            { result := .error e, state := st, queue := q,
              calls := [.recordClockOutThenIn t] }

/-- Abstract queue operations, for stating FIFO behaviour of the queue under
arbitrary interleavings of `enqueue`, `mark_completed` and
`increment_retry`. -/
inductive QueueOp where
  | enq (action_type : ActionType) (timestamp : Int) (payload : Option String)
      (now : Int)
  | rm (id : Int)
  | retry (id : Int)
deriving DecidableEq, Repr

/-- Apply one queue operation. -/
def applyOp (q : OfflineQueue) : QueueOp → OfflineQueue
  | .enq t ts p now => (enqueue q t ts p now).1
  | .rm i => mark_completed q i
  | .retry i => increment_retry q i

/-- Apply a sequence of queue operations in order. -/
def applyOps (q : OfflineQueue) (ops : List QueueOp) : OfflineQueue :=
  ops.foldl applyOp q

/-- Specification-level bookkeeping for a trace of queue operations: the ids
of the not-yet-removed actions in enqueue order, starting from surviving ids
`acc` and next fresh id `n`. -/
def survivingIds : List QueueOp → List Int → Int → List Int
  | [], acc, _ => acc
  | .enq _ _ _ _ :: ops, acc, n => survivingIds ops (acc ++ [n]) (n + 1)
  | .rm i :: ops, acc, n =>
    survivingIds ops (acc.filter (fun j => decide (j ≠ i))) n
  | .retry _ :: ops, acc, n => survivingIds ops acc n

/-- The `now` readings of the enqueue operations of a trace, in order. -/
def enqNows : List QueueOp → List Int
  | [] => []
  | .enq _ _ _ now :: ops => now :: enqNows ops
  | .rm _ :: ops => enqNows ops
  | .retry _ :: ops => enqNows ops

/-- An action as the command surface enqueues it: `ClockIn` and `ClockOut`
carry no payload; `ClockOutWithBreak` carries a payload that the shared
RFC-3339 parser accepts. -/
def GoodPayload (parse : String → Option Int) (a : QueuedAction) : Prop :=
  match a.action_type with
  | .ClockOutWithBreak => ∃ p t, a.payload = some p ∧ parse p = some t
  | _ => a.payload = none

/-- Every row of the queue is well-formed in the sense of `GoodPayload`. -/
def PayloadWF (parse : String → Option Int) (q : OfflineQueue) : Prop :=
  ∀ a ∈ q.rows, GoodPayload parse a

/-- The precondition-failure outcome shared by the three commands: an error
result naming the missing precondition, untouched state and queue, and no
remote calls. -/
def precondFailure (st : SharedState) (q : OfflineQueue) (o : CmdOutcome) :
    Prop :=
  (o.result = .error "Not authenticated" ∨
      o.result = .error "Webapp URL not configured") ∧
    o.state = st ∧ o.queue = q ∧ o.calls = []

/-! Concrete sample values used by the witness theorems. -/

/-- A sample queued action. -/
def a0 : QueuedAction :=
  { id := 2, action_type := .ClockIn, timestamp := 0, payload := none,
    retry_count := 0, created_at := 0 }

/-- A sample queue holding `a0`. -/
def q8 : OfflineQueue := { rows := [a0], nextId := 3 }

/-- A sample parser accepting exactly one RFC-3339 string. -/
def parse0 : String → Option Int :=
  fun s => if s = "2024-01-02T03:04:05Z" then some 100 else none

/-- A sample sync environment. -/
def env0 : SyncEnv :=
  { parse := parse0, replayOk := fun _ => true, statusResult := none }

/-- A sample logged-out shared state. -/
def st7 : SharedState :=
  { sessionToken := none, webappUrl := "u", isClockedIn := true }

/-- A sample unconfigured shared state. -/
def st6 : SharedState :=
  { sessionToken := none, webappUrl := "", isClockedIn := false }

/-- A sample command environment whose direct call fails transiently. -/
def env1 : CmdEnv :=
  { directResult := .error "connection refused", statusResult := .error "s",
    storageErr := none, now := 10, enqNow := 11 }

/-- A sample authenticated, configured, clocked-out shared state. -/
def st1 : SharedState :=
  { sessionToken := some "tok", webappUrl := "https://z8",
    isClockedIn := false }

/-- A sample command environment with a transient direct failure and a
failing store. -/
def env4 : CmdEnv :=
  { directResult := .error "connection refused", statusResult := .error "s",
    storageErr := some "disk full", now := 10, enqNow := 11 }

/-- The outcome of a command's transient-failure fallback with a working
store: the synthesized status `synthStatus returned`, the stated new shared
state, exactly one new action of the given kind and payload appended to the
queue, and only the direct remote call attempted. -/
def transientOutcome (env : CmdEnv) (_st : SharedState) (q : OfflineQueue)
    (ty : ActionType) (payload : Option String) (returned : Bool)
    (newState : SharedState) (calls : List ApiCall) : CmdOutcome :=
  let a : QueuedAction :=
    { id := q.nextId, action_type := ty, timestamp := env.now,
      payload := payload, retry_count := 0, created_at := env.enqNow }
  { result := .ok (synthStatus returned), state := newState,
    queue := { rows := q.rows ++ [a], nextId := q.nextId + 1 },
    calls := calls }

/-- A sample action that has exhausted its retries. -/
def a5 : QueuedAction :=
  { id := 1, action_type := .ClockIn, timestamp := 0, payload := none,
    retry_count := 5, created_at := 0 }

/-- A sample queue holding only `a5`. -/
def q3 : OfflineQueue := { rows := [a5], nextId := 2 }

/-- A sample break action whose payload the parser rejects. -/
def aBad : QueuedAction :=
  { id := 1, action_type := .ClockOutWithBreak, timestamp := 0,
    payload := some "garbage", retry_count := 0, created_at := 0 }

/-- A sample queue holding only `aBad`. -/
def qBad : OfflineQueue := { rows := [aBad], nextId := 2 }

/-- A sample break action with a parseable payload. -/
def aGood : QueuedAction :=
  { id := 1, action_type := .ClockOutWithBreak, timestamp := 0,
    payload := some "2024-01-02T03:04:05Z", retry_count := 0,
    created_at := 0 }

/-- A sample queue holding only `aGood`. -/
def qGood : OfflineQueue := { rows := [aGood], nextId := 2 }

/-- A sample operation trace with an interleaved retry and a removal. -/
def ops0 : List QueueOp :=
  [.enq .ClockIn 5 none 10, .enq .ClockOut 6 none 10, .retry 1, .rm 1,
    .enq .ClockOutWithBreak 7 (some "2024-01-02T03:04:05Z") 12]

/-! Helper lemmas. -/

/-- Filtering twice with the same predicate equals filtering once. -/
lemma filter_idem {α : Type} (p : α → Bool) (l : List α) :
    (l.filter p).filter p = l.filter p := by
  induction l with
  | nil => rfl
  | cons x xs ih =>
    by_cases hx : p x <;> simp [List.filter_cons, hx, ih]

/-- Every event emitted by `attemptAction` for an action with a different id
is not a remote dispatch for id `i`. -/
lemma attempt_isCallFor (env : SyncEnv) (b : QueuedAction) (i : Int)
    (hne : b.id ≠ i) : ∀ e ∈ (attemptAction env b).2, isCallFor i e = false := by
  intro e he
  obtain ⟨bid, bty, bts, bp, brc, bca⟩ := b
  cases bty with
  | ClockIn =>
    simp [attemptAction] at he
    subst he; simp [isCallFor, hne]
  | ClockOut =>
    simp [attemptAction] at he
    subst he; simp [isCallFor, hne]
  | ClockOutWithBreak =>
    cases bp with
    | none =>
      simp [attemptAction] at he
      subst he; simp [isCallFor]
    | some p =>
      cases hp : env.parse p with
      | none =>
        simp [attemptAction, hp] at he
        subst he; simp [isCallFor]
      | some t =>
        simp [attemptAction, hp] at he
        subst he; simp [isCallFor, hne]

/-- A `ClockOutWithBreak` action whose payload is missing or rejected by the
parser yields a failed attempt with only the payload-failure marker. -/
lemma attempt_bad_payload (env : SyncEnv) (b : QueuedAction)
    (hty : b.action_type = .ClockOutWithBreak)
    (hbad : ∀ p, b.payload = some p → env.parse p = none) :
    attemptAction env b = (false, [.payloadFailure b.id]) := by
  obtain ⟨bid, bty, bts, bp, brc, bca⟩ := b
  subst hty
  cases bp with
  | none => rfl
  | some p => simp [attemptAction, hbad p rfl]

/-- An action with a well-formed payload never produces the payload-failure
marker. -/
lemma attempt_good (env : SyncEnv) (b : QueuedAction)
    (hg : GoodPayload env.parse b) :
    ∀ e ∈ (attemptAction env b).2, isPayloadFailure e = false := by
  intro e he
  obtain ⟨bid, bty, bts, bp, brc, bca⟩ := b
  cases bty with
  | ClockIn => simp [attemptAction] at he; subst he; rfl
  | ClockOut => simp [attemptAction] at he; subst he; rfl
  | ClockOutWithBreak =>
    simp only [GoodPayload] at hg
    obtain ⟨p, t, hp, ht⟩ := hg
    subst hp
    simp [attemptAction, ht] at he
    subst he; rfl

/-- A row whose id differs from every processed action's id survives the
per-action loop unchanged. -/
lemma foldl_rows_untouched (env : SyncEnv) (r : QueuedAction) :
    ∀ (l : List QueuedAction) (acc : OfflineQueue × List SyncEvent),
      (∀ b ∈ l, b.id ≠ r.id) → r ∈ acc.1.rows →
      r ∈ (l.foldl (processOne env) acc).1.rows := by
  intro l
  induction l with
  | nil => intro acc _ hr; exact hr
  | cons b l ih =>
    intro acc hne hr
    have hbr : b.id ≠ r.id := hne b (List.mem_cons_self b l)
    rw [List.foldl_cons]
    refine ih _ (fun c hc => hne c (List.mem_cons_of_mem b hc)) ?_
    simp only [processOne]
    split
    · exact hr
    · split
      · simp only [mark_completed, List.mem_filter]
        exact ⟨hr, by simpa using Ne.symm hbr⟩
      · simp only [increment_retry]
        exact List.mem_map.mpr ⟨r, hr, by rw [if_neg (Ne.symm hbr)]⟩

/-- Events added by the per-action loop when an id is never processed are
never remote dispatches for that id. -/
lemma foldl_events_new (env : SyncEnv) (i : Int) :
    ∀ (l : List QueuedAction) (acc : OfflineQueue × List SyncEvent),
      (∀ b ∈ l, b.id ≠ i) →
      ∀ e ∈ (l.foldl (processOne env) acc).2,
        e ∈ acc.2 ∨ isCallFor i e = false := by
  intro l
  induction l with
  | nil => intro acc _ e he; exact Or.inl he
  | cons b l ih =>
    intro acc hne e he
    rw [List.foldl_cons] at he
    have hbi : b.id ≠ i := hne b (List.mem_cons_self b l)
    rcases ih (processOne env acc b)
        (fun c hc => hne c (List.mem_cons_of_mem b hc)) e he with h | h
    · simp only [processOne] at h
      split at h
      · rcases List.mem_append.mp h with h' | h'
        · exact Or.inl h'
        · simp at h'; subst h'; exact Or.inr rfl
      · split at h <;>
          rcases List.mem_append.mp h with h' | h' <;>
          first
            | exact Or.inl h'
            | exact Or.inr (attempt_isCallFor env b i hbi e h')
    · exact Or.inr h

/-- When every processed action has a well-formed payload, the per-action
loop adds no payload-failure event. -/
lemma foldl_no_payload_failure (env : SyncEnv) :
    ∀ (l : List QueuedAction) (acc : OfflineQueue × List SyncEvent),
      (∀ b ∈ l, GoodPayload env.parse b) →
      (∀ e ∈ acc.2, isPayloadFailure e = false) →
      ∀ e ∈ (l.foldl (processOne env) acc).2, isPayloadFailure e = false := by
  intro l
  induction l with
  | nil => intro acc _ hacc e he; exact hacc e he
  | cons b l ih =>
    intro acc hg hacc e he
    rw [List.foldl_cons] at he
    refine ih (processOne env acc b)
      (fun c hc => hg c (List.mem_cons_of_mem b hc)) ?_ e he
    intro e' he'
    simp only [processOne] at he'
    split at he'
    · rcases List.mem_append.mp he' with h' | h'
      · exact hacc e' h'
      · simp at h'; subst h'; rfl
    · split at he' <;>
        rcases List.mem_append.mp he' with h' | h' <;>
        first
          | exact hacc e' h'
          | exact attempt_good env b (hg b (List.mem_cons_self b l)) e' h'

/-- Splitting the pending snapshot around a member whose id is unique: the
other pending entries all have different ids. -/
lemma pending_split (q : OfflineQueue) (a : QueuedAction)
    (hnodup : (q.rows.map (fun r => r.id)).Nodup) (ha : a ∈ q.rows) :
    ∃ l1 l2, get_pending q = l1 ++ a :: l2 ∧
      (∀ b ∈ l1, b.id ≠ a.id) ∧ ∀ b ∈ l2, b.id ≠ a.id := by
  have hperm : (get_pending q).Perm q.rows := List.mergeSort_perm q.rows _
  have hmem : a ∈ get_pending q := hperm.mem_iff.mpr ha
  obtain ⟨l1, l2, hsplit⟩ := List.append_of_mem hmem
  have hnd2 : ((l1 ++ a :: l2).map (fun r => r.id)).Nodup := by
    rw [← hsplit]; exact ((hperm.map _).nodup_iff).mpr hnodup
  rw [List.map_append, List.map_cons] at hnd2
  obtain ⟨hnotin, -⟩ := List.nodup_cons.mp (List.nodup_middle.mp hnd2)
  refine ⟨l1, l2, hsplit, ?_, ?_⟩
  · intro b hb hbid
    exact hnotin (List.mem_append.mpr (Or.inl
      (by rw [← hbid]; exact List.mem_map_of_mem _ hb)))
  · intro b hb hbid
    exact hnotin (List.mem_append.mpr (Or.inr
      (by rw [← hbid]; exact List.mem_map_of_mem _ hb)))

/-- Membership in a queue's rows makes its `count` positive. -/
lemma count_pos_of_mem {q : OfflineQueue} {a : QueuedAction}
    (h : a ∈ q.rows) : 0 < count q := by
  simpa [count] using Int.natCast_pos.mpr
    (List.length_pos.mpr (List.ne_nil_of_mem h))

/-- A cycle with no token, no URL, or an empty pending snapshot does
nothing: the `continue`s fire before any work, including the terminal
status fetch. -/
lemma syncCycle_noop (env : SyncEnv) (st : SharedState) (q : OfflineQueue)
    (h : st.sessionToken = none ∨ st.webappUrl = "" ∨
      (get_pending q).isEmpty = true) :
    syncCycle env st q =
      { queue := q, clockedIn := st.isClockedIn, events := [] } := by
  rcases h with h | h | h
  · simp [syncCycle, h]
  · unfold syncCycle
    cases htok : st.sessionToken with
    | none => rfl
    | some tk => simp [h]
  · unfold syncCycle
    cases htok : st.sessionToken with
    | none => rfl
    | some tk => by_cases hurl : st.webappUrl = "" <;> simp [hurl, h]

/-- A cycle with a token, a URL and a nonempty pending snapshot processes
every pending action and ends with the status fetch. -/
lemma syncCycle_run (env : SyncEnv) (st : SharedState) (q : OfflineQueue)
    (tk : String) (htok : st.sessionToken = some tk)
    (hurl : st.webappUrl ≠ "") (hpe : (get_pending q).isEmpty = false) :
    syncCycle env st q =
      { queue := ((get_pending q).foldl (processOne env) (q, [])).1,
        clockedIn := (match env.statusResult with
          | some b => b
          | none => st.isClockedIn),
        events := ((get_pending q).foldl (processOne env) (q, [])).2 ++
          [.statusFetch] } := by
  cases hst : env.statusResult with
  | some bflag => simp [syncCycle, htok, hurl, hpe, hst]
  | none => simp [syncCycle, htok, hurl, hpe, hst]

/-- The pending snapshot of a queue with a member is nonempty. -/
lemma get_pending_not_empty {q : OfflineQueue} {a : QueuedAction}
    (ha : a ∈ q.rows) : (get_pending q).isEmpty = false := by
  have hm : a ∈ get_pending q :=
    (List.mergeSort_perm q.rows _).mem_iff.mpr ha
  cases hgp : get_pending q with
  | nil => rw [hgp] at hm; cases hm
  | cons x xs => rfl

/-- C10: immediately after `AppState::new` (process startup), the clocked-in
flag is `false`, even when a persisted session token was successfully loaded
from disk; the flag always starts from the `false` baseline. -/
theorem c10_initial_clocked_out (settings : Settings) (pq : OfflineQueue)
    (t : String) :
    (AppState.new settings pq (some t)).isClockedIn = false ∧
    (AppState.new settings pq (some t)).sessionToken = some t :=
  ⟨rfl, rfl⟩

/-- C8: `remove(id)` is idempotent — removing twice equals removing once, an
entry with a different id survives the removal, and removing an id that is
not present leaves the queue unchanged. -/
theorem c8_remove_idempotent (q : OfflineQueue) (i : Int) (a : QueuedAction)
    (ha : a ∈ q.rows) (hne : a.id ≠ i) :
    mark_completed (mark_completed q i) i = mark_completed q i ∧
    a ∈ (mark_completed q i).rows ∧
    ((∀ b ∈ q.rows, b.id ≠ i) → mark_completed q i = q) := by
  refine ⟨?_, ?_, ?_⟩
  · simp only [mark_completed]
    rw [filter_idem]
  · simp [mark_completed, List.mem_filter, ha, hne]
  · intro h
    have hfix : q.rows.filter (fun b => decide (b.id ≠ i)) = q.rows :=
      List.filter_eq_self.mpr (fun b hb => by simpa using h b hb)
    show ({ q with
      rows := q.rows.filter (fun b => decide (b.id ≠ i)) } : OfflineQueue) = q
    rw [hfix]

/-- C8 witness: concrete instance of `c8_remove_idempotent`. -/
theorem c8_witness :
    a0 ∈ q8.rows ∧ a0.id ≠ 1 ∧
    (mark_completed (mark_completed q8 1) 1 = mark_completed q8 1 ∧
      a0 ∈ (mark_completed q8 1).rows ∧
      ((∀ b ∈ q8.rows, b.id ≠ 1) → mark_completed q8 1 = q8)) :=
  ⟨by decide, by decide, c8_remove_idempotent q8 1 a0 (by decide) (by decide)⟩

/-- C7: a sync cycle with no session token, or one whose pending snapshot is
empty, performs no network calls at all and leaves both the queue and the
clocked-in flag unchanged (the code `continue`s before the terminal status
fetch in both cases). -/
theorem c7_skip_cycle (env : SyncEnv) (st : SharedState) (q : OfflineQueue)
    (h : st.sessionToken = none ∨ (get_pending q).isEmpty = true) :
    syncCycle env st q =
      { queue := q, clockedIn := st.isClockedIn, events := [] } :=
  syncCycle_noop env st q (h.elim Or.inl (fun h2 => Or.inr (Or.inr h2)))

/-- C7 witness: concrete instance of `c7_skip_cycle`. -/
theorem c7_witness :
    (st7.sessionToken = none ∨ (get_pending emptyQueue).isEmpty = true) ∧
    syncCycle env0 st7 emptyQueue =
      { queue := emptyQueue, clockedIn := st7.isClockedIn, events := [] } :=
  ⟨Or.inl rfl, c7_skip_cycle env0 st7 emptyQueue (Or.inl rfl)⟩

/-- C6: each of the three commands, when no session token is present or the
webapp URL is empty, fails immediately with the corresponding error, makes
no remote call, enqueues nothing, and leaves the shared state unchanged. -/
theorem c6_preconditions (parse : String → Option Int) (env : CmdEnv)
    (st : SharedState) (q : OfflineQueue) (bs : String)
    (h : st.sessionToken = none ∨ st.webappUrl = "") :
    precondFailure st q (cmdClockIn env st q) ∧
    precondFailure st q (cmdClockOut env st q) ∧
    precondFailure st q (cmdClockOutWithBreak parse env st q bs) := by
  rcases h with h | h
  · refine ⟨?_, ?_, ?_⟩ <;>
      simp [cmdClockIn, cmdClockOut, cmdClockOutWithBreak, precondFailure, h]
  · cases htok : st.sessionToken with
    | none =>
      refine ⟨?_, ?_, ?_⟩ <;>
        simp [cmdClockIn, cmdClockOut, cmdClockOutWithBreak, precondFailure,
          htok]
    | some tk =>
      refine ⟨?_, ?_, ?_⟩ <;>
        simp [cmdClockIn, cmdClockOut, cmdClockOutWithBreak, precondFailure,
          htok, h]

/-- C6 witness: concrete instance of `c6_preconditions`. -/
theorem c6_witness :
    (st6.sessionToken = none ∨ st6.webappUrl = "") ∧
    (precondFailure st6 emptyQueue (cmdClockIn env1 st6 emptyQueue) ∧
      precondFailure st6 emptyQueue (cmdClockOut env1 st6 emptyQueue) ∧
      precondFailure st6 emptyQueue
        (cmdClockOutWithBreak parse0 env1 st6 emptyQueue "x")) :=
  ⟨Or.inl rfl,
    c6_preconditions parse0 env1 st6 emptyQueue "x" (Or.inl rfl)⟩

/-- C1 (amended): on a transiently classified direct failure with a working
store, each command enqueues exactly one action of the corresponding kind
and payload and returns the synthesized optimistic status; `clockIn` sets
the shared clocked-in flag to `true` and `clockOut` to `false`, but
`clockOutWithBreak` leaves the shared flag unchanged (only its returned
status reports clocked-in). -/
theorem c1_transient_fallback (parse : String → Option Int) (env : CmdEnv)
    (st : SharedState) (q : OfflineQueue) (bs tk e : String) (t : Int)
    (htok : st.sessionToken = some tk) (hurl : st.webappUrl ≠ "")
    (hdir : env.directResult = .error e) (htrans : isTransient e = true)
    (hstore : env.storageErr = none) (hbs : parse bs = some t) :
    cmdClockIn env st q =
      transientOutcome env st q .ClockIn none true
        { st with isClockedIn := true } [.recordClockIn] ∧
    cmdClockOut env st q =
      transientOutcome env st q .ClockOut none false
        { st with isClockedIn := false } [.recordClockOut] ∧
    cmdClockOutWithBreak parse env st q bs =
      transientOutcome env st q .ClockOutWithBreak (some bs) true st
        [.recordClockOutThenIn t] := by
  refine ⟨?_, ?_, ?_⟩ <;>
    simp [cmdClockIn, cmdClockOut, cmdClockOutWithBreak, htok, hurl, hdir,
      htrans, hstore, hbs, enqueueDiscard, enqueueF, enqueue,
      transientOutcome]

/-- C1 counterexample: with a transiently failing direct call,
`clockOutWithBreak` takes the fallback branch (its result is the synthesized
clocked-in status) yet the shared clocked-in flag is not set to `true` — it
stays `false` — refuting the claim that all three commands optimistically
set `isClockedIn`. -/
theorem c1_counterexample :
    isTransient "connection refused" = true ∧
    (cmdClockOutWithBreak parse0 env1 st1 emptyQueue
      "2024-01-02T03:04:05Z").result = .ok (synthStatus true) ∧
    (cmdClockOutWithBreak parse0 env1 st1 emptyQueue
      "2024-01-02T03:04:05Z").state.isClockedIn = false :=
  ⟨rfl, rfl, rfl⟩

/-- C1 witness: concrete instance of `c1_transient_fallback`. -/
theorem c1_witness :
    (st1.sessionToken = some "tok" ∧ st1.webappUrl ≠ "" ∧
      env1.directResult = .error "connection refused" ∧
      isTransient "connection refused" = true ∧ env1.storageErr = none ∧
      parse0 "2024-01-02T03:04:05Z" = some 100) ∧
    (cmdClockIn env1 st1 emptyQueue =
      transientOutcome env1 st1 emptyQueue .ClockIn none true
        { st1 with isClockedIn := true } [.recordClockIn] ∧
    cmdClockOut env1 st1 emptyQueue =
      transientOutcome env1 st1 emptyQueue .ClockOut none false
        { st1 with isClockedIn := false } [.recordClockOut] ∧
    cmdClockOutWithBreak parse0 env1 st1 emptyQueue "2024-01-02T03:04:05Z" =
      transientOutcome env1 st1 emptyQueue .ClockOutWithBreak
        (some "2024-01-02T03:04:05Z") true st1
        [.recordClockOutThenIn 100]) :=
  ⟨⟨rfl, by decide, rfl, rfl, rfl, rfl⟩,
    c1_transient_fallback parse0 env1 st1 emptyQueue "2024-01-02T03:04:05Z"
      "tok" "connection refused" 100 rfl (by decide) rfl rfl rfl rfl⟩

/-- C4 (amended): `OfflineQueue::enqueue` does propagate a storage error to
its caller through its `Result`, but the Command Surface's transient-failure
fallback discards that `Result` (`let _ = queue.enqueue(...)`): the command
still returns the synthesized optimistic status with the queue unchanged, so
the storage error is not surfaced to the command's caller. -/
theorem c4_storage_error (env : CmdEnv) (st : SharedState) (q : OfflineQueue)
    (tk e emsg : String)
    (htok : st.sessionToken = some tk) (hurl : st.webappUrl ≠ "")
    (hdir : env.directResult = .error e) (htrans : isTransient e = true)
    (hstore : env.storageErr = some emsg) :
    enqueueF env.storageErr q .ClockIn env.now none env.enqNow =
      .error emsg ∧
    cmdClockIn env st q =
      { result := .ok (synthStatus true),
        state := { st with isClockedIn := true }, queue := q,
        calls := [.recordClockIn] } := by
  constructor
  · simp [enqueueF, hstore]
  · simp [cmdClockIn, htok, hurl, hdir, htrans, enqueueDiscard, enqueueF,
      hstore]

/-- C4 counterexample: a storage error inside the transient-failure fallback
of `clock_in` is not surfaced to the command's caller — the command still
returns the synthesized `Ok` status and the queue is unchanged. -/
theorem c4_counterexample :
    env4.storageErr = some "disk full" ∧
    isTransient "connection refused" = true ∧
    (cmdClockIn env4 st1 emptyQueue).result = .ok (synthStatus true) ∧
    (cmdClockIn env4 st1 emptyQueue).queue = emptyQueue :=
  ⟨rfl, rfl, rfl, rfl⟩

/-- C4 witness: concrete instance of `c4_storage_error`. -/
theorem c4_witness :
    (st1.sessionToken = some "tok" ∧ st1.webappUrl ≠ "" ∧
      env4.directResult = .error "connection refused" ∧
      isTransient "connection refused" = true ∧
      env4.storageErr = some "disk full") ∧
    (enqueueF env4.storageErr emptyQueue .ClockIn env4.now none env4.enqNow =
      .error "disk full" ∧
    cmdClockIn env4 st1 emptyQueue =
      { result := .ok (synthStatus true),
        state := { st1 with isClockedIn := true }, queue := emptyQueue,
        calls := [.recordClockIn] }) :=
  ⟨⟨rfl, by decide, rfl, rfl, rfl⟩,
    c4_storage_error env4 st1 emptyQueue "tok" "connection refused"
      "disk full" rfl (by decide) rfl rfl rfl⟩

/-- C3: a pending action with `retry_count ≥ 5` is never dispatched to the
remote clock API by a sync cycle — it is skipped, neither removed nor
retried (it survives in the queue unchanged) — yet it remains included in
the value returned by `count`. -/
theorem c3_retry_cap (env : SyncEnv) (st : SharedState) (q : OfflineQueue)
    (a : QueuedAction) (hnodup : (q.rows.map (fun r => r.id)).Nodup)
    (ha : a ∈ q.rows) (h5 : 5 ≤ a.retry_count) :
    a ∈ (syncCycle env st q).queue.rows ∧
    (∀ e ∈ (syncCycle env st q).events, isCallFor a.id e = false) ∧
    0 < count (syncCycle env st q).queue := by
  have hcore :
      a ∈ ((get_pending q).foldl (processOne env) (q, [])).1.rows ∧
      ∀ e ∈ ((get_pending q).foldl (processOne env) (q, [])).2,
        isCallFor a.id e = false := by
    obtain ⟨l1, l2, hsplit, h1, h2⟩ := pending_split q a hnodup ha
    rw [hsplit, List.foldl_append, List.foldl_cons]
    have hr1 : a ∈ (l1.foldl (processOne env) (q, ([] : List SyncEvent))).1.rows :=
      foldl_rows_untouched env a l1 (q, []) h1 ha
    have hstep : processOne env (l1.foldl (processOne env) (q, [])) a =
        ((l1.foldl (processOne env) (q, [])).1,
          (l1.foldl (processOne env) (q, [])).2 ++ [.skipped a.id]) := by
      simp [processOne, h5]
    rw [hstep]
    constructor
    · exact foldl_rows_untouched env a l2 _ h2 hr1
    · intro e he
      rcases foldl_events_new env a.id l2 _ h2 e he with h | h
      · rcases List.mem_append.mp h with h' | h'
        · rcases foldl_events_new env a.id l1 (q, []) h1 e h' with h'' | h''
          · cases h''
          · exact h''
        · simp at h'; subst h'; rfl
      · exact h
  cases htok : st.sessionToken with
  | none =>
    rw [syncCycle_noop env st q (Or.inl htok)]
    exact ⟨ha, fun e he => absurd he (List.not_mem_nil e),
      count_pos_of_mem ha⟩
  | some tk =>
    by_cases hurl : st.webappUrl = ""
    · rw [syncCycle_noop env st q (Or.inr (Or.inl hurl))]
      exact ⟨ha, fun e he => absurd he (List.not_mem_nil e),
        count_pos_of_mem ha⟩
    · rw [syncCycle_run env st q tk htok hurl (get_pending_not_empty ha)]
      refine ⟨hcore.1, ?_, count_pos_of_mem hcore.1⟩
      intro e he
      rcases List.mem_append.mp he with h | h
      · exact hcore.2 e h
      · simp at h; subst h; rfl

/-- C3 witness: concrete instance of `c3_retry_cap`. -/
theorem c3_witness :
    ((q3.rows.map (fun r => r.id)).Nodup ∧ a5 ∈ q3.rows ∧
      5 ≤ a5.retry_count) ∧
    (a5 ∈ (syncCycle env0 st1 q3).queue.rows ∧
      (∀ e ∈ (syncCycle env0 st1 q3).events, isCallFor a5.id e = false) ∧
      0 < count (syncCycle env0 st1 q3).queue) :=
  ⟨⟨by decide, by decide, by decide⟩,
    c3_retry_cap env0 st1 q3 a5 (by decide) (by decide) (by decide)⟩

/-- C5: when a sync cycle attempts a `ClockOutWithBreak` action whose
payload is missing or rejected by the parser, the action is treated as a
failed attempt: no remote call is dispatched for it, it is not removed, and
its retry count is incremented, leaving it queued for the next cycle. -/
theorem c5_unparseable_payload (env : SyncEnv) (st : SharedState)
    (q : OfflineQueue) (a : QueuedAction) (tk : String)
    (hnodup : (q.rows.map (fun r => r.id)).Nodup) (ha : a ∈ q.rows)
    (htok : st.sessionToken = some tk) (hurl : st.webappUrl ≠ "")
    (hty : a.action_type = .ClockOutWithBreak) (h5 : a.retry_count < 5)
    (hbad : ∀ p, a.payload = some p → env.parse p = none) :
    { a with retry_count := a.retry_count + 1 } ∈
      (syncCycle env st q).queue.rows ∧
    ∀ e ∈ (syncCycle env st q).events, isCallFor a.id e = false := by
  have h5' : ¬ (5 : Int) ≤ a.retry_count := not_le.mpr h5
  have hcore :
      ({ a with retry_count := a.retry_count + 1 }) ∈
        ((get_pending q).foldl (processOne env) (q, [])).1.rows ∧
      ∀ e ∈ ((get_pending q).foldl (processOne env) (q, [])).2,
        isCallFor a.id e = false := by
    obtain ⟨l1, l2, hsplit, h1, h2⟩ := pending_split q a hnodup ha
    rw [hsplit, List.foldl_append, List.foldl_cons]
    have hr1 : a ∈ (l1.foldl (processOne env) (q, ([] : List SyncEvent))).1.rows :=
      foldl_rows_untouched env a l1 (q, []) h1 ha
    have hatt := attempt_bad_payload env a hty hbad
    have hstep : processOne env (l1.foldl (processOne env) (q, [])) a =
        (increment_retry (l1.foldl (processOne env) (q, [])).1 a.id,
          (l1.foldl (processOne env) (q, [])).2 ++ [.payloadFailure a.id]) := by
      simp [processOne, h5', hatt]
    rw [hstep]
    have hr2 : ({ a with retry_count := a.retry_count + 1 }) ∈
        (increment_retry (l1.foldl (processOne env) (q, [])).1 a.id).rows := by
      simp only [increment_retry]
      exact List.mem_map.mpr ⟨a, hr1, by rw [if_pos rfl]⟩
    constructor
    · exact foldl_rows_untouched env _ l2 _ h2 hr2
    · intro e he
      rcases foldl_events_new env a.id l2 _ h2 e he with h | h
      · rcases List.mem_append.mp h with h' | h'
        · rcases foldl_events_new env a.id l1 (q, []) h1 e h' with h'' | h''
          · cases h''
          · exact h''
        · simp at h'; subst h'; rfl
      · exact h
  rw [syncCycle_run env st q tk htok hurl (get_pending_not_empty ha)]
  refine ⟨hcore.1, ?_⟩
  intro e he
  rcases List.mem_append.mp he with h | h
  · exact hcore.2 e h
  · simp at h; subst h; rfl

/-- C5 witness: concrete instance of `c5_unparseable_payload`. -/
theorem c5_witness :
    ((qBad.rows.map (fun r => r.id)).Nodup ∧ aBad ∈ qBad.rows ∧
      st1.sessionToken = some "tok" ∧ st1.webappUrl ≠ "" ∧
      aBad.action_type = .ClockOutWithBreak ∧ aBad.retry_count < 5 ∧
      (∀ p, aBad.payload = some p → env0.parse p = none)) ∧
    ({ aBad with retry_count := aBad.retry_count + 1 } ∈
      (syncCycle env0 st1 qBad).queue.rows ∧
    ∀ e ∈ (syncCycle env0 st1 qBad).events, isCallFor aBad.id e = false) :=
  ⟨⟨by decide, by decide, rfl, by decide, rfl, by decide,
      fun p hp => by
        simp [aBad] at hp
        subst hp
        rfl⟩,
    c5_unparseable_payload env0 st1 qBad aBad "tok" (by decide) (by decide)
      rfl (by decide) rfl (by decide)
      (fun p hp => by
        simp [aBad] at hp
        subst hp
        rfl)⟩

/-- The queue after `clock_in` is either untouched or extended through the
transient-fallback enqueue of a payload-free `ClockIn` action. -/
lemma cmdClockIn_queue_cases (env : CmdEnv) (st : SharedState)
    (q : OfflineQueue) :
    (cmdClockIn env st q).queue = q ∨
    (cmdClockIn env st q).queue = enqueueDiscard env q .ClockIn none := by
  unfold cmdClockIn
  cases htok : st.sessionToken with
  | none => exact Or.inl rfl
  | some tk =>
    by_cases hurl : st.webappUrl = ""
    · rw [if_pos hurl]; exact Or.inl rfl
    · rw [if_neg hurl]
      cases hdir : env.directResult with
      | ok u =>
        cases hst : env.statusResult with
        | ok s => exact Or.inl rfl
        | error e => exact Or.inl rfl
      | error e =>
        by_cases ht : isTransient e = true
        · refine Or.inr ?_
          simp [ht]
        · refine Or.inl ?_
          simp [ht]

/-- The queue after `clock_out` is either untouched or extended through the
transient-fallback enqueue of a payload-free `ClockOut` action. -/
lemma cmdClockOut_queue_cases (env : CmdEnv) (st : SharedState)
    (q : OfflineQueue) :
    (cmdClockOut env st q).queue = q ∨
    (cmdClockOut env st q).queue = enqueueDiscard env q .ClockOut none := by
  unfold cmdClockOut
  cases htok : st.sessionToken with
  | none => exact Or.inl rfl
  | some tk =>
    by_cases hurl : st.webappUrl = ""
    · rw [if_pos hurl]; exact Or.inl rfl
    · rw [if_neg hurl]
      cases hdir : env.directResult with
      | ok u =>
        cases hst : env.statusResult with
        | ok s => exact Or.inl rfl
        | error e => exact Or.inl rfl
      | error e =>
        by_cases ht : isTransient e = true
        · refine Or.inr ?_
          simp [ht]
        · refine Or.inl ?_
          simp [ht]

/-- The queue after `clock_out_with_break` is either untouched or extended
with a `ClockOutWithBreak` action carrying the break string — and in the
latter case the break string was accepted by the parser before any enqueue,
because the command parses it before the remote attempt. -/
lemma cmdClockOutWithBreak_queue_cases (parse : String → Option Int)
    (env : CmdEnv) (st : SharedState) (q : OfflineQueue) (bs : String) :
    (cmdClockOutWithBreak parse env st q bs).queue = q ∨
    ∃ t, parse bs = some t ∧
      (cmdClockOutWithBreak parse env st q bs).queue =
        enqueueDiscard env q .ClockOutWithBreak (some bs) := by
  unfold cmdClockOutWithBreak
  cases htok : st.sessionToken with
  | none => exact Or.inl rfl
  | some tk =>
    by_cases hurl : st.webappUrl = ""
    · rw [if_pos hurl]; exact Or.inl rfl
    · rw [if_neg hurl]
      cases hps : parse bs with
      | none => exact Or.inl rfl
      | some t =>
        cases hdir : env.directResult with
        | ok u =>
          cases hst : env.statusResult with
          | ok s => exact Or.inl rfl
          | error e => exact Or.inl rfl
        | error e =>
          by_cases ht : isTransient e = true
          · refine Or.inr ⟨t, rfl, ?_⟩
            simp [ht]
          · refine Or.inl ?_
            simp [ht]

/-- The transient-fallback enqueue preserves the payload invariant when the
enqueued action itself satisfies it. -/
lemma payloadWF_enqueueDiscard (parse : String → Option Int) (env : CmdEnv)
    (q : OfflineQueue) (ty : ActionType) (payload : Option String)
    (hwf : PayloadWF parse q)
    (hg : GoodPayload parse
      { id := q.nextId, action_type := ty, timestamp := env.now,
        payload := payload, retry_count := 0, created_at := env.enqNow }) :
    PayloadWF parse (enqueueDiscard env q ty payload) := by
  unfold enqueueDiscard enqueueF
  cases env.storageErr with
  | some e => exact hwf
  | none =>
    intro b hb
    simp only [enqueue] at hb
    rcases List.mem_append.mp hb with hb | hb
    · exact hwf b hb
    · simp at hb; subst hb; exact hg

/-- C9: every `ClockOutWithBreak` action enqueued by the command surface
carries a payload the shared RFC-3339 parser accepts (the break string is
validated before the remote attempt, hence before any enqueue), and
`ClockIn` / `ClockOut` actions are enqueued with no payload; consequently,
on a queue whose rows all satisfy this invariant, a sync cycle never takes
the missing-payload or unparseable-payload failure branch. -/
theorem c9_payload_invariant (parse : String → Option Int) (env : CmdEnv)
    (senv : SyncEnv) (st : SharedState) (q : OfflineQueue) (bs : String)
    (hp : senv.parse = parse) (hwf : PayloadWF parse q) :
    PayloadWF parse (cmdClockIn env st q).queue ∧
    PayloadWF parse (cmdClockOut env st q).queue ∧
    PayloadWF parse (cmdClockOutWithBreak parse env st q bs).queue ∧
    ∀ e ∈ (syncCycle senv st q).events, isPayloadFailure e = false := by
  refine ⟨?_, ?_, ?_, ?_⟩
  · rcases cmdClockIn_queue_cases env st q with h | h <;> rw [h]
    · exact hwf
    · exact payloadWF_enqueueDiscard parse env q .ClockIn none hwf rfl
  · rcases cmdClockOut_queue_cases env st q with h | h <;> rw [h]
    · exact hwf
    · exact payloadWF_enqueueDiscard parse env q .ClockOut none hwf rfl
  · rcases cmdClockOutWithBreak_queue_cases parse env st q bs with
      h | ⟨t, hps, h⟩ <;> rw [h]
    · exact hwf
    · exact payloadWF_enqueueDiscard parse env q .ClockOutWithBreak (some bs)
        hwf ⟨bs, t, rfl, hps⟩
  · intro e he
    cases htok : st.sessionToken with
    | none => rw [syncCycle_noop senv st q (Or.inl htok)] at he; cases he
    | some tk =>
      by_cases hurl : st.webappUrl = ""
      · rw [syncCycle_noop senv st q (Or.inr (Or.inl hurl))] at he
        cases he
      · by_cases hpe : (get_pending q).isEmpty = true
        · rw [syncCycle_noop senv st q (Or.inr (Or.inr hpe))] at he
          cases he
        · rw [syncCycle_run senv st q tk htok hurl
            (by simpa using hpe)] at he
          rcases List.mem_append.mp he with h | h
          · refine foldl_no_payload_failure senv (get_pending q) (q, [])
              ?_ ?_ e h
            · intro b hb
              rw [hp]
              exact hwf b ((List.mergeSort_perm q.rows _).mem_iff.mp hb)
            · intro e' he'; cases he'
          · simp at h; subst h; rfl

/-- C9 witness: concrete instance of `c9_payload_invariant` on a queue
holding one well-formed break action. -/
theorem c9_witness :
    (env0.parse = parse0 ∧ PayloadWF parse0 qGood) ∧
    (PayloadWF parse0 (cmdClockIn env1 st1 qGood).queue ∧
      PayloadWF parse0 (cmdClockOut env1 st1 qGood).queue ∧
      PayloadWF parse0
        (cmdClockOutWithBreak parse0 env1 st1 qGood
          "2024-01-02T03:04:05Z").queue ∧
      ∀ e ∈ (syncCycle env0 st1 qGood).events,
        isPayloadFailure e = false) := by
  have hwf : PayloadWF parse0 qGood := by
    intro a ha
    simp [qGood] at ha
    subst ha
    exact ⟨"2024-01-02T03:04:05Z", 100, rfl, rfl⟩
  exact ⟨⟨rfl, hwf⟩,
    c9_payload_invariant parse0 env1 env0 st1 qGood "2024-01-02T03:04:05Z"
      rfl hwf⟩

/-- The retry-increment update keeps the `created_at` field. -/
lemma inc_created (a : QueuedAction) (i : Int) :
    ((if a.id = i then { a with retry_count := a.retry_count + 1 }
      else a) : QueuedAction).created_at = a.created_at := by
  by_cases h : a.id = i <;> simp [h]

/-- The retry-increment update keeps the `id` field. -/
lemma inc_id (a : QueuedAction) (i : Int) :
    ((if a.id = i then { a with retry_count := a.retry_count + 1 }
      else a) : QueuedAction).id = a.id := by
  by_cases h : a.id = i <;> simp [h]

/-- Mapping ids commutes with the deletion filter. -/
lemma map_id_filter (l : List QueuedAction) (i : Int) :
    (l.filter (fun a => decide (a.id ≠ i))).map (fun a => a.id) =
      (l.map (fun a => a.id)).filter (fun j => decide (j ≠ i)) := by
  induction l with
  | nil => rfl
  | cons x xs ih =>
    by_cases hx : x.id = i <;> simp [List.filter_cons, hx] <;>
      simpa using ih

/-- The retry-increment map does not change the id sequence. -/
lemma map_id_increment (l : List QueuedAction) (i : Int) :
    (l.map (fun a =>
        if a.id = i then { a with retry_count := a.retry_count + 1 }
        else a)).map (fun a => a.id) = l.map (fun a => a.id) := by
  induction l with
  | nil => rfl
  | cons x xs ih => by_cases hx : x.id = i <;> simp [hx, ih]

/-- The id sequence of the table after a trace of operations equals the
specification-level `survivingIds` bookkeeping. -/
lemma ids_spec : ∀ (ops : List QueueOp) (q : OfflineQueue),
    (applyOps q ops).rows.map (fun a => a.id) =
      survivingIds ops (q.rows.map (fun a => a.id)) q.nextId := by
  intro ops
  induction ops with
  | nil => intro q; rfl
  | cons op ops ih =>
    intro q
    cases op with
    | enq t ts p now =>
      have h1 : applyOps q (QueueOp.enq t ts p now :: ops) =
          applyOps (enqueue q t ts p now).1 ops := rfl
      rw [h1, ih]
      have h2 : (enqueue q t ts p now).1.rows.map (fun a => a.id) =
          (q.rows.map (fun a => a.id)) ++ [q.nextId] := by simp [enqueue]
      rw [h2]
      rfl
    | rm i =>
      have h1 : applyOps q (QueueOp.rm i :: ops) =
          applyOps (mark_completed q i) ops := rfl
      rw [h1, ih]
      have h2 : (mark_completed q i).rows.map (fun a => a.id) =
          (q.rows.map (fun a => a.id)).filter (fun j => decide (j ≠ i)) :=
        map_id_filter q.rows i
      rw [h2]
      rfl
    | retry i =>
      have h1 : applyOps q (QueueOp.retry i :: ops) =
          applyOps (increment_retry q i) ops := rfl
      rw [h1, ih]
      have h2 : (increment_retry q i).rows.map (fun a => a.id) =
          q.rows.map (fun a => a.id) := map_id_increment q.rows i
      rw [h2]
      rfl

/-- A table whose rows are nondecreasing in `created_at` stays so under a
trace whose enqueue clock readings dominate the table and are themselves
nondecreasing. -/
lemma rows_pairwise_created :
    ∀ (ops : List QueueOp) (q : OfflineQueue),
      q.rows.Pairwise (fun a b => a.created_at ≤ b.created_at) →
      (∀ a ∈ q.rows, ∀ m ∈ enqNows ops, a.created_at ≤ m) →
      (enqNows ops).Pairwise (· ≤ ·) →
      (applyOps q ops).rows.Pairwise
        (fun a b => a.created_at ≤ b.created_at) := by
  intro ops
  induction ops with
  | nil => intro q hq _ _; exact hq
  | cons op ops ih =>
    intro q hq hbound hchain
    cases op with
    | enq t ts p now =>
      have hch : (enqNows ops).Pairwise (· ≤ ·) :=
        (List.pairwise_cons.mp hchain).2
      have hnow_le : ∀ m ∈ enqNows ops, now ≤ m :=
        (List.pairwise_cons.mp hchain).1
      refine ih (enqueue q t ts p now).1 ?_ ?_ hch
      · show (q.rows ++ [_]).Pairwise _
        rw [List.pairwise_append]
        refine ⟨hq, List.pairwise_singleton _ _, ?_⟩
        intro x hx y hy
        simp at hy
        subst hy
        exact hbound x hx now (by simp [enqNows])
      · intro a ha m hm
        rcases List.mem_append.mp ha with ha | ha
        · exact hbound a ha m (List.mem_cons_of_mem _ hm)
        · simp at ha; subst ha; exact hnow_le m hm
    | rm i =>
      refine ih (mark_completed q i) ?_ ?_ hchain
      · exact List.Pairwise.sublist (List.filter_sublist _) hq
      · intro a ha m hm
        exact hbound a (List.mem_of_mem_filter ha) m hm
    | retry i =>
      refine ih (increment_retry q i) ?_ ?_ hchain
      · show (q.rows.map _).Pairwise _
        rw [List.pairwise_map]
        refine hq.imp ?_
        intro a b hab
        rw [inc_created, inc_created]
        exact hab
      · intro a ha m hm
        rcases List.mem_map.mp ha with ⟨x, hx, hxa⟩
        rw [← hxa, inc_created]
        exact hbound x hx m hm

/-- Ids stay strictly increasing (in rowid order) and bounded by the
`AUTOINCREMENT` counter under any trace of operations. -/
lemma rows_ids_strict :
    ∀ (ops : List QueueOp) (q : OfflineQueue),
      (∀ a ∈ q.rows, a.id < q.nextId) →
      q.rows.Pairwise (fun a b => a.id < b.id) →
      (∀ a ∈ (applyOps q ops).rows, a.id < (applyOps q ops).nextId) ∧
      (applyOps q ops).rows.Pairwise (fun a b => a.id < b.id) := by
  intro ops
  induction ops with
  | nil => intro q h1 h2; exact ⟨h1, h2⟩
  | cons op ops ih =>
    intro q h1 h2
    cases op with
    | enq t ts p now =>
      refine ih (enqueue q t ts p now).1 ?_ ?_
      · intro a ha
        rcases List.mem_append.mp ha with ha | ha
        · exact lt_trans (h1 a ha) (lt_add_one _)
        · simp at ha; subst ha; exact lt_add_one _
      · show (q.rows ++ [_]).Pairwise _
        rw [List.pairwise_append]
        refine ⟨h2, List.pairwise_singleton _ _, ?_⟩
        intro x hx y hy
        simp at hy
        subst hy
        exact h1 x hx
    | rm i =>
      refine ih (mark_completed q i) ?_ ?_
      · intro a ha; exact h1 a (List.mem_of_mem_filter ha)
      · exact List.Pairwise.sublist (List.filter_sublist _) h2
    | retry i =>
      refine ih (increment_retry q i) ?_ ?_
      · intro a ha
        rcases List.mem_map.mp ha with ⟨x, hx, hxa⟩
        rw [← hxa, inc_id]
        exact h1 x hx
      · show (q.rows.map _).Pairwise _
        rw [List.pairwise_map]
        refine h2.imp ?_
        intro a b hab
        rw [inc_id, inc_id]
        exact hab

/-- The pending query returns the table in rowid order when `created_at` is
nondecreasing in rowid order: the stable sort leaves it unchanged. -/
lemma get_pending_of_sorted (q : OfflineQueue)
    (h : q.rows.Pairwise (fun a b => a.created_at ≤ b.created_at)) :
    get_pending q = q.rows :=
  List.mergeSort_of_sorted (h.imp (fun hab => decide_eq_true hab))

/-- C2: for every trace of enqueue, remove and increment-retry operations
with nondecreasing enqueue clock readings, the pending query returns exactly
the not-yet-removed actions, in the exact order they were enqueued
(the sort is the identity on the rowid-ordered table, the surviving id
sequence matches the enqueue-order bookkeeping, and the ids are strictly
ascending), regardless of interleaved retry increments. -/
theorem c2_fifo (ops : List QueueOp)
    (hmono : (enqNows ops).Pairwise (· ≤ ·)) :
    get_pending (applyOps emptyQueue ops) = (applyOps emptyQueue ops).rows ∧
    (applyOps emptyQueue ops).rows.map (fun a => a.id) =
      survivingIds ops [] 1 ∧
    ((applyOps emptyQueue ops).rows.map (fun a => a.id)).Pairwise
      (· < ·) := by
  have hsorted := rows_pairwise_created ops emptyQueue List.Pairwise.nil
    (fun a ha => absurd ha (List.not_mem_nil a)) hmono
  have hids := rows_ids_strict ops emptyQueue
    (fun a ha => absurd ha (List.not_mem_nil a)) List.Pairwise.nil
  refine ⟨get_pending_of_sorted _ hsorted, ?_, ?_⟩
  · simpa [emptyQueue] using ids_spec ops emptyQueue
  · rw [List.pairwise_map]
    exact hids.2

/-- C2 witness: concrete instance of `c2_fifo` on a trace with interleaved
retry and removal operations. -/
theorem c2_witness :
    (enqNows ops0).Pairwise (· ≤ ·) ∧
    (get_pending (applyOps emptyQueue ops0) =
        (applyOps emptyQueue ops0).rows ∧
      (applyOps emptyQueue ops0).rows.map (fun a => a.id) =
        survivingIds ops0 [] 1 ∧
      ((applyOps emptyQueue ops0).rows.map (fun a => a.id)).Pairwise
        (· < ·)) :=
  ⟨by decide, c2_fifo ops0 (by decide)⟩

end Z8
